import Mathlib

/-!
# mqtt-mitt: the connection manager of `src/util/mqtt.js`

A shallow embedding of the module `src/util/mqtt.js`: the message handler,
`subscribe`, `onMqttMessage`, `unsubscribe` and the health-check loop
`mqttReconnect`, over an explicit state that stands for the two process-wide
singletons (`mqttClient`, `emitter`) and the console.

The two libraries the module is glued onto are not part of the repository.
The MQTT client is represented by what the module reads and calls on it: the
`connected` flag, the list of listeners added with `on('connect', ..)`, and a
record of the requests handed to it. The emitter is represented as the spec
describes it, a table from topic name to the callbacks registered under it;
nothing else of the emitter library is assumed. User callbacks are opaque
function values: an invocation is recorded, with its argument, and the
callback is taken to return without calling back into the module.
-/

namespace MqttMitt

/-! ## Data model -/

/-- A topic name, the key of the emitter and of broker requests. -/
abbrev Topic := String

/-- The identity of a JavaScript function value passed as `cb`. -/
abbrev Callback := Nat

/-- The object `{topic, message}` handed to the local callbacks. -/
structure Message where
  topic : String
  message : String
deriving DecidableEq, Repr

/-- A request handed to the MQTT client for the broker. -/
inductive Request where
  | subscribe (topic : String) (qos : Nat)
  | unsubscribe (topic : String)
deriving DecidableEq, Repr

/-- The process-wide state the module works on.

* `connected`, `connectListeners`, `requests`: the MQTT client
  (`mqttClient.connected`, the listeners added by `mqttClient.on('connect', ..)`
  in registration order, each one the closure of `onMqttMessage` for the topic
  recorded here, and the requests issued so far, oldest first);
* `all`: the table of the emitter, `emitter.all`;
* `emitted`, `calls`: the record of `emitter.emit` calls and of callback
  invocations, oldest first;
* `console`: the lines written with `console.log`;
* `VUE_APP_MQTT`: `process.env.VUE_APP_MQTT` as it prints. -/
structure State where
  connected : Bool
  connectListeners : List Topic
  requests : List Request
  all : List (String × List Callback)
  emitted : List (String × Message)
  calls : List (Callback × Message)
  console : List String
  VUE_APP_MQTT : String
deriving DecidableEq, Repr

/-- The state right after the module is loaded: the client is created and
still connecting, nothing is registered, nothing has been requested. -/
def State.init (url : String) : State :=
  { connected := false, connectListeners := [], requests := [],
    all := [], emitted := [], calls := [], console := [], VUE_APP_MQTT := url }

/-! ## The emitter -/

/-- Modelled from the spec: the update of the mapping of the emitter (the
emitter library is not under src/): the entry of `k` becomes `v`, the other
entries are untouched. -/
def mapSet : List (String × List Callback) → String → List Callback →
    List (String × List Callback)
  | [], k, v => [(k, v)]
  | (k', v') :: m, k, v => if k' = k then (k, v) :: m else (k', v') :: mapSet m k v

/-- The callbacks registered under `topic`, in registration order. -/
def handlers (s : State) (topic : String) : List Callback :=
  (s.all.lookup topic).getD []

/-- Modelled from the spec: `emitter.on(type, handler)` (the emitter library
is not under src/). The emitter maps a topic name to its registered callbacks;
a callback is added on subscribe, each call adds an independent local callback,
and the same topic may have several. -/
def emitterOn (type : String) (handler : Callback) (s : State) : State :=
  match s.all.lookup type with
  | some hs => { s with all := mapSet s.all type (hs ++ [handler]) }
  | none => { s with all := mapSet s.all type [handler] }

/-- Modelled from the spec: `emitter.off(type)`, called without a handler
(the emitter library is not under src/): removes all local callbacks
registered under `type`. -/
def emitterOff (type : String) (s : State) : State :=
  match s.all.lookup type with
  | some _ => { s with all := mapSet s.all type [] }
  | none => s

/-- Modelled from the spec: `emitter.emit(type, evt)` (the emitter library is
not under src/): fans `evt` out to the local listeners registered under the
key `type`, each invoked once per registration with `evt`. -/
def emitterEmit (type : String) (evt : Message) (s : State) : State :=
  { s with
    emitted := s.emitted ++ [(type, evt)]
    calls := s.calls ++ (handlers s type).map (fun cb => (cb, evt)) }

/-! ## The module `src/util/mqtt.js` -/

/-- The function `console.log`. -/
def log (line : String) (s : State) : State :=
  { s with console := s.console ++ [line] }

/-- The listener of line 13, `mqttClient.on('message', (topic, message) => ..)`:
republishes the pair into the emitter under the key `topic`. `toString` is
`message.toString()`, the decoding of the payload bytes to text. -/
def onMessage {Buffer : Type} (toString : Buffer → String)
    (topic : String) (message : Buffer) (s : State) : State :=
  emitterEmit topic { topic := topic, message := toString message } s

/-- The call `mqttClient.subscribe(topic, {qos}, callback)`: the request is
handed to the client; the callback runs later, see `subscribeAck`. -/
def clientSubscribe (topic : String) (qos : Nat) (s : State) : State :=
  { s with requests := s.requests ++ [Request.subscribe topic qos] }

/-- The call `mqttClient.unsubscribe(topic, {}, callback)`. -/
def clientUnsubscribe (topic : String) (s : State) : State :=
  { s with requests := s.requests ++ [Request.unsubscribe topic] }

/-- The function `subscribe(topic)` of line 17, up to the acknowledgement. -/
def subscribe (topic : String) (s : State) : State :=
  clientSubscribe topic 2 s

/-- The acknowledgement callback of `subscribe`, lines 18-22:
`(err) => { if (!err) { console.log(..) } }`. The result is `Except.error`
when the callback throws. -/
def subscribeAck (topic : String) (err : Option String) (s : State) :
    Except String State :=
  if err.isNone then
    Except.ok (log ("订阅主题 " ++ topic ++ " 成功") s)
  else
    Except.ok s

/-- The listener `onMqttMessage` adds with `mqttClient.on('connect', ..)`,
lines 38-42, for the topic it closes over. -/
def connectListener (topic : String) (s : State) : State :=
  subscribe topic (log ("mqtt：" ++ s.VUE_APP_MQTT ++ "  连接成功...") s)

/-- The function `onMqttMessage({topic, cb})` of line 30. -/
def onMqttMessage (topic : String) (cb : Callback) (s : State) : State :=
  let s := emitterOn topic cb s
  if s.connected then
    subscribe topic s
  else
    { s with connectListeners := s.connectListeners ++ [topic] }

/-- The function `unsubscribe(topic)` of line 68, up to the acknowledgement. -/
def unsubscribe (topic : String) (s : State) : State :=
  clientUnsubscribe topic (emitterOff topic s)

/-- The acknowledgement callback of `unsubscribe`, lines 70-74. -/
def unsubscribeAck (topic : String) (err : Option String) (s : State) :
    Except String State :=
  if err.isNone then
    Except.ok (log ("取消订阅" ++ topic ++ "成功") s)
  else
    Except.ok s

/-! ## Events of the MQTT client -/

/-- The client emits `connect`: it is connected, and every listener added with
`on('connect', ..)` runs, in registration order. The listeners stay
registered: line 38 adds them with `on`, not `once`, and no line of the module
removes one. -/
def connectEvent (s : State) : State :=
  s.connectListeners.foldl (fun st topic => connectListener topic st)
    { s with connected := true }

/-- The client loses its connection. -/
def closeEvent (s : State) : State :=
  { s with connected := false }

/-- What the client reports between two calls of the application. -/
inductive ClientEvent where
  | connect
  | close
deriving DecidableEq, Repr

/-- One event of the client. -/
def ClientEvent.apply : ClientEvent → State → State
  | ClientEvent.connect, s => connectEvent s
  | ClientEvent.close, s => closeEvent s

/-- A sequence of events of the client, oldest first. -/
def runEvents (es : List ClientEvent) (s : State) : State :=
  es.foldl (fun st e => e.apply st) s

/-- The subscription requests for `topic` among `rs`. -/
def subscriptionsFor (topic : String) (rs : List Request) : List Request :=
  rs.filter (fun r => match r with
    | Request.subscribe t _ => t == topic
    | Request.unsubscribe _ => false)

/-! ## The health-check loop -/

/-- One tick of the interval callback of `mqttReconnect`, lines 81-97.
`client` is `none` when `mqttClient` is not created, else `mqttClient.connected`;
`count` is the closure variable. The result is the new `count` and whether
`mqttClient.reconnect()` was invoked on this tick. -/
def tick (client : Option Bool) (count : Nat) : Nat × Bool :=
  match client with
  | none => (count, false)
  | some true => (0, false)
  | some false =>
    let count := count + 1
    if count >= 3 then (0, true) else (count, false)

/-- Successive ticks, one per sample, starting from `count`: whether each
tick invoked reconnect, and the final counter. -/
def runTicks : List (Option Bool) → Nat → List Bool × Nat
  | [], count => ([], count)
  | c :: cs, count =>
    let r := tick c count
    let rest := runTicks cs r.1
    (r.2 :: rest.1, rest.2)

/-- The function `mqttReconnect` fed with connection-state samples (`true` is
"connected", `false` is "disconnected"): the counter starts at 0 (line 79)
and the client exists on every tick. Entry `k` tells whether tick `k`
invoked reconnect. -/
def mqttReconnect (samples : List Bool) : List Bool × Nat :=
  runTicks (samples.map some) 0

/-- Whether tick `k` (from 0) of `mqttReconnect` invoked reconnect. -/
def reconnectAt (samples : List Bool) (k : Nat) : Bool :=
  (mqttReconnect samples).1.getD k false

/-- In the words of the spec: the 3 most recent consecutive samples at tick
`k` (that tick's sample and the two before it) were all "disconnected". -/
def lastThreeDisconnected (samples : List Bool) (k : Nat) : Bool :=
  decide (2 ≤ k) && samples[k]? == some false && samples[k - 1]? == some false
    && samples[k - 2]? == some false

/-- In the words of the spec: the length of the run of consecutive
"disconnected" samples that ends the list, counted since the last "connected"
sample or since the start. -/
def disconnectedRun (samples : List Bool) : Nat :=
  (samples.reverse.takeWhile (fun c => !c)).length

/-! ## Runs of the module -/

/-- One step of a run of the application against the module: a call of one of
the two exported functions, a message of the broker, or an event of the
client. -/
inductive Action (Buffer : Type) where
  | onMqttMessage (topic : String) (cb : Callback)
  | unsubscribe (topic : String)
  | message (topic : String) (payload : Buffer)
  | client (e : ClientEvent)

/-- The effect of one step. -/
def Action.apply {Buffer : Type} (toString : Buffer → String) :
    Action Buffer → State → State
  | Action.onMqttMessage topic cb, s => MqttMitt.onMqttMessage topic cb s
  | Action.unsubscribe topic, s => MqttMitt.unsubscribe topic s
  | Action.message topic payload, s => onMessage toString topic payload s
  | Action.client e, s => e.apply s

/-- A run: the steps in order, oldest first. -/
def run {Buffer : Type} (toString : Buffer → String) (steps : List (Action Buffer))
    (s : State) : State :=
  steps.foldl (fun st a => a.apply toString st) s

/-- The callbacks passed to the `onMqttMessage` calls for `topic` in a run,
in call order. -/
def registered {Buffer : Type} (topic : String) : List (Action Buffer) → List Callback
  | [] => []
  | Action.onMqttMessage t cb :: steps =>
    if t = topic then cb :: registered topic steps else registered topic steps
  | Action.unsubscribe _ :: steps => registered topic steps
  | Action.message _ _ :: steps => registered topic steps
  | Action.client _ :: steps => registered topic steps

/-- The requests a sequence of client events makes the listeners `listeners`
issue: each `connect` runs every listener once. -/
def issuedBy (listeners : List String) : List ClientEvent → List Request
  | [] => []
  | ClientEvent.connect :: es =>
    listeners.map (fun t => Request.subscribe t 2) ++ issuedBy listeners es
  | ClientEvent.close :: es => issuedBy listeners es

/-! ## Lemmas on the health-check loop -/

theorem runTicks_append (l1 l2 : List (Option Bool)) (n : Nat) :
    runTicks (l1 ++ l2) n =
      ((runTicks l1 n).1 ++ (runTicks l2 (runTicks l1 n).2).1,
        (runTicks l2 (runTicks l1 n).2).2) := by
  induction l1 generalizing n with
  | nil => simp [runTicks]
  | cons c cs ih => simp [runTicks, ih]

theorem runTicks_length (l : List (Option Bool)) (n : Nat) :
    (runTicks l n).1.length = l.length := by
  induction l generalizing n with
  | nil => simp [runTicks]
  | cons c cs ih => simp [runTicks, ih]

theorem disconnectedRun_snoc (l : List Bool) (c : Bool) :
    disconnectedRun (l ++ [c]) = if c then 0 else disconnectedRun l + 1 := by
  cases c <;> simp [disconnectedRun, List.takeWhile_cons]

/-- The counter after the samples `l` is the length of the run of
"disconnected" samples ending `l`, modulo 3. -/
theorem mqttReconnect_count (l : List Bool) :
    (mqttReconnect l).2 = disconnectedRun l % 3 := by
  induction l using List.reverseRecOn with
  | nil => simp [mqttReconnect, runTicks, disconnectedRun]
  | append_singleton l c ih =>
    unfold mqttReconnect at ih ⊢
    rw [List.map_append, runTicks_append, disconnectedRun_snoc]
    simp only [List.map_cons, List.map_nil, runTicks, ih]
    cases c
    · simp only [tick]
      split <;> simp_all <;> omega
    · simp [tick]

/-- Tick `k` invokes reconnect exactly when its sample is "disconnected" and
the counter it finds is 2. -/
theorem reconnectAt_iff (samples : List Bool) (k : Nat) :
    reconnectAt samples k = true ↔
      samples[k]? = some false ∧ disconnectedRun (samples.take k) % 3 = 2 := by
  by_cases hk : k < samples.length
  · have hsplit : samples = samples.take k ++ ([samples[k]] ++ samples.drop (k + 1)) := by
      simp
    have hlen : (runTicks ((samples.take k).map some) 0).1.length = k := by
      rw [runTicks_length]; simp; omega
    have hc := mqttReconnect_count (samples.take k)
    unfold mqttReconnect at hc
    unfold reconnectAt mqttReconnect
    conv_lhs => rw [hsplit]
    rw [List.map_append, runTicks_append, List.map_append, runTicks_append]
    simp only [List.getD_eq_getElem?_getD]
    rw [List.getElem?_append_right (by omega)]
    simp only [hlen, Nat.sub_self, List.map_cons, List.map_nil, runTicks, hc,
      List.getElem?_eq_getElem hk]
    cases samples[k]
    · simp only [tick]
      split <;> simp_all <;> omega
    · simp [tick]
  · have h1 : samples[k]? = none := by simp; omega
    have h2 : (mqttReconnect samples).1[k]? = none := by
      unfold mqttReconnect
      rw [List.getElem?_eq_none_iff, runTicks_length]; simp; omega
    simp [reconnectAt, List.getD_eq_getElem?_getD, h1, h2]

theorem disconnectedRun_take_succ (samples : List Bool) (k : Nat) (c : Bool)
    (h : samples[k]? = some c) :
    disconnectedRun (samples.take (k + 1)) =
      if c then 0 else disconnectedRun (samples.take k) + 1 := by
  rw [List.take_succ, h]
  exact disconnectedRun_snoc _ c

/-! ## The health-check loop: claims -/

/-- C1, as the spec words it, fails: with four "disconnected" samples from
boot, the 3 most recent samples at the fourth tick are all "disconnected",
yet the fourth tick does not invoke reconnect (the third did, and reset the
counter). -/
theorem mqttReconnect_last_three_not_sufficient :
    ¬ (reconnectAt [false, false, false, false] 3 = true ↔
        lastThreeDisconnected [false, false, false, false] 3 = true) := by
  decide

/-- C1, amended: reconnect is invoked on a tick if and only if the 3 most
recent consecutive samples (that tick's sample and the two before it) were all
"disconnected" and reconnect was invoked on neither of the two preceding
ticks. -/
theorem mqttReconnect_invoked_iff_last_three_and_no_recent_reconnect
    (samples : List Bool) (k : Nat) :
    reconnectAt samples k = true ↔
      (lastThreeDisconnected samples k = true ∧ reconnectAt samples (k - 1) = false ∧
        reconnectAt samples (k - 2) = false) := by
  have hno : ∀ j, reconnectAt samples j = false ↔ ¬ reconnectAt samples j = true := by
    intro j; cases reconnectAt samples j <;> simp
  rw [hno, hno, reconnectAt_iff, reconnectAt_iff, reconnectAt_iff]
  match k with
  | 0 => simp [lastThreeDisconnected, disconnectedRun]
  | 1 =>
    cases samples with
    | nil => simp [lastThreeDisconnected, disconnectedRun]
    | cons a l => cases a <;> simp [lastThreeDisconnected, disconnectedRun]
  | j + 2 =>
    by_cases hk : j + 2 < samples.length
    · have ha : samples[j]? = some samples[j] := List.getElem?_eq_getElem (by omega)
      have hb : samples[j + 1]? = some samples[j + 1] := List.getElem?_eq_getElem (by omega)
      have hc : samples[j + 2]? = some samples[j + 2] := List.getElem?_eq_getElem hk
      have r1 := disconnectedRun_take_succ samples j _ ha
      have r2 := disconnectedRun_take_succ samples (j + 1) _ hb
      simp only [lastThreeDisconnected, Nat.add_sub_cancel, show j + 2 - 1 = j + 1 from rfl,
        ha, hb, hc, r1, r2]
      cases samples[j] <;> cases samples[j + 1] <;> cases samples[j + 2] <;> simp
      omega
    · have hc : samples[j + 2]? = none := by simp; omega
      simp [lastThreeDisconnected, hc]

/-- C2: from counter 0, tick `k` invokes reconnect exactly when the run of
consecutive "disconnected" samples ending at tick `k` (counted since the last
"connected" sample or since start) has a length that is a positive multiple of
3; and when every sample from boot is "disconnected", the first three ticks
invoke reconnect exactly once, on the third tick, and the counter is 0 after
them. -/
theorem mqttReconnect_invoked_iff_run_positive_multiple_of_three
    (samples : List Bool) (k : Nat) :
    (reconnectAt samples k = true ↔
      (k < samples.length ∧ 0 < disconnectedRun (samples.take (k + 1)) ∧
        disconnectedRun (samples.take (k + 1)) % 3 = 0)) ∧
    mqttReconnect [false, false, false] = ([false, false, true], 0) ∧
    (∀ n, (mqttReconnect (List.replicate (n + 3) false)).1.take 3 = [false, false, true]) := by
  refine ⟨?_, by decide, ?_⟩
  · rw [reconnectAt_iff]
    by_cases hk : k < samples.length
    · have hc : samples[k]? = some samples[k] := List.getElem?_eq_getElem hk
      rw [disconnectedRun_take_succ samples k _ hc, hc]
      cases samples[k] <;> simp [hk]
      omega
    · have hc : samples[k]? = none := by simp; omega
      simp [hc, hk]
  · intro n
    have h : List.replicate (n + 3) false = [false, false, false] ++ List.replicate n false := by
      simp [List.replicate_succ, List.replicate_add]
    unfold mqttReconnect
    rw [h, List.map_append, runTicks_append]
    simp [runTicks, tick]

/-! ## Lemmas on the emitter -/

theorem lookup_mapSet_self (m : List (String × List Callback)) (k : String)
    (v : List Callback) : (mapSet m k v).lookup k = some v := by
  induction m with
  | nil => simp [mapSet, List.lookup]
  | cons e m ih =>
    obtain ⟨k', v'⟩ := e
    by_cases h : k' = k
    · simp [mapSet, h, List.lookup]
    · have h' : (k == k') = false := by simpa using fun h2 => h h2.symm
      simp [mapSet, h, List.lookup, h', ih]

theorem lookup_mapSet_ne (m : List (String × List Callback)) (k k' : String)
    (v : List Callback) (hne : k' ≠ k) : (mapSet m k v).lookup k' = m.lookup k' := by
  induction m with
  | nil =>
    have h' : (k' == k) = false := by simpa using hne
    simp [mapSet, List.lookup, h']
  | cons e m ih =>
    obtain ⟨k0, v0⟩ := e
    by_cases h : k0 = k
    · subst h
      have h' : (k' == k0) = false := by simpa using hne
      simp [mapSet, List.lookup, h']
    · simp only [mapSet, h, if_false, List.lookup, ih]

theorem handlers_emitterOn_self (t : String) (cb : Callback) (s : State) :
    handlers (emitterOn t cb s) t = handlers s t ++ [cb] := by
  cases h : s.all.lookup t <;> simp [emitterOn, handlers, h, lookup_mapSet_self]

theorem lookup_emitterOn_ne (t t' : String) (cb : Callback) (s : State) (hne : t' ≠ t) :
    (emitterOn t cb s).all.lookup t' = s.all.lookup t' := by
  unfold emitterOn
  split <;> simp [lookup_mapSet_ne _ _ _ _ hne]

theorem handlers_emitterOff_self (t : String) (s : State) :
    handlers (emitterOff t s) t = [] := by
  cases h : s.all.lookup t <;> simp [emitterOff, handlers, h, lookup_mapSet_self]

theorem lookup_emitterOff_ne (t t' : String) (s : State) (hne : t' ≠ t) :
    (emitterOff t s).all.lookup t' = s.all.lookup t' := by
  unfold emitterOff
  split <;> simp [lookup_mapSet_ne _ _ _ _ hne]

/-! ## Lemmas on the module and on the events of the client -/

theorem emitterOn_frame (t : String) (cb : Callback) (s : State) :
    (emitterOn t cb s).connected = s.connected ∧
      (emitterOn t cb s).connectListeners = s.connectListeners ∧
      (emitterOn t cb s).requests = s.requests ∧
      (emitterOn t cb s).calls = s.calls := by
  cases h : s.all.lookup t <;> simp [emitterOn, h]

theorem emitterOff_frame (t : String) (s : State) :
    (emitterOff t s).connected = s.connected ∧
      (emitterOff t s).connectListeners = s.connectListeners ∧
      (emitterOff t s).requests = s.requests ∧
      (emitterOff t s).calls = s.calls := by
  cases h : s.all.lookup t <;> simp [emitterOff, h]

theorem onMqttMessage_disconnected (t : String) (cb : Callback) (s : State)
    (h : s.connected = false) :
    onMqttMessage t cb s =
      { emitterOn t cb s with connectListeners := s.connectListeners ++ [t] } := by
  obtain ⟨h1, h2, _, _⟩ := emitterOn_frame t cb s
  simp [onMqttMessage, h1, h2, h]

theorem onMqttMessage_connected (t : String) (cb : Callback) (s : State)
    (h : s.connected = true) :
    onMqttMessage t cb s = subscribe t (emitterOn t cb s) := by
  obtain ⟨h1, _, _, _⟩ := emitterOn_frame t cb s
  simp [onMqttMessage, h1, h]

theorem foldl_connectListener (l : List String) (s : State) :
    (l.foldl (fun st t => connectListener t st) s).requests =
        s.requests ++ l.map (fun t => Request.subscribe t 2) ∧
      (l.foldl (fun st t => connectListener t st) s).connectListeners =
        s.connectListeners ∧
      (l.foldl (fun st t => connectListener t st) s).all = s.all ∧
      (l.foldl (fun st t => connectListener t st) s).calls = s.calls := by
  induction l generalizing s with
  | nil => simp
  | cons t l ih =>
    obtain ⟨h1, h2, h3, h4⟩ := ih (connectListener t s)
    simp only [List.foldl_cons]
    rw [h1, h2, h3, h4]
    simp [connectListener, subscribe, clientSubscribe, log]

theorem connectEvent_frame (s : State) :
    (connectEvent s).requests =
        s.requests ++ s.connectListeners.map (fun t => Request.subscribe t 2) ∧
      (connectEvent s).connectListeners = s.connectListeners ∧
      (connectEvent s).all = s.all ∧
      (connectEvent s).calls = s.calls := by
  unfold connectEvent
  exact foldl_connectListener s.connectListeners { s with connected := true }

theorem runEvents_frame (es : List ClientEvent) (s : State) :
    (runEvents es s).requests = s.requests ++ issuedBy s.connectListeners es ∧
      (runEvents es s).connectListeners = s.connectListeners ∧
      (runEvents es s).all = s.all ∧
      (runEvents es s).calls = s.calls := by
  induction es generalizing s with
  | nil => simp [runEvents, issuedBy]
  | cons e es ih =>
    obtain ⟨h1, h2, h3, h4⟩ := ih (e.apply s)
    have hrun : runEvents (e :: es) s = runEvents es (e.apply s) := rfl
    rw [hrun, h1, h2, h3, h4]
    cases e with
    | connect =>
      obtain ⟨c1, c2, c3, c4⟩ := connectEvent_frame s
      simp only [ClientEvent.apply, issuedBy]
      rw [c1, c2, c3, c4]
      simp
    | close =>
      simp [ClientEvent.apply, closeEvent, issuedBy]

theorem subscriptionsFor_append (t : String) (a b : List Request) :
    subscriptionsFor t (a ++ b) = subscriptionsFor t a ++ subscriptionsFor t b := by
  simp [subscriptionsFor]

theorem subscriptionsFor_listeners (t : String) (l : List String) :
    (subscriptionsFor t (l.map (fun x => Request.subscribe x 2))).length = l.count t := by
  induction l with
  | nil => simp [subscriptionsFor]
  | cons x l ih =>
    unfold subscriptionsFor at ih ⊢
    by_cases hx : x = t
    · simp [hx, List.filter_cons, ih]
    · have hx' : (x == t) = false := by simpa using hx
      simp [List.filter_cons, ih, hx', List.count_cons]

theorem subscriptionsFor_issuedBy (t : String) (l : List String) (es : List ClientEvent) :
    (subscriptionsFor t (issuedBy l es)).length = es.count ClientEvent.connect * l.count t := by
  induction es with
  | nil => simp [issuedBy, subscriptionsFor]
  | cons e es ih =>
    cases e with
    | connect =>
      simp only [issuedBy, subscriptionsFor_append, List.length_append, ih,
        subscriptionsFor_listeners, List.count_cons_self]
      ring
    | close =>
      have hne : (ClientEvent.close == ClientEvent.connect) = false := by decide
      simp [issuedBy, ih, List.count_cons, hne]

theorem onMqttMessage_all (t : String) (cb : Callback) (s : State) :
    (onMqttMessage t cb s).all = (emitterOn t cb s).all := by
  simp only [onMqttMessage]
  split <;> rfl

theorem handlers_onMqttMessage (t T : String) (cb : Callback) (s : State) :
    handlers (onMqttMessage t cb s) T =
      if t = T then handlers s T ++ [cb] else handlers s T := by
  by_cases h : t = T
  · subst h
    have := handlers_emitterOn_self t cb s
    simpa [handlers, onMqttMessage_all] using this
  · have := lookup_emitterOn_ne t T cb s (fun e => h e.symm)
    simp [handlers, onMqttMessage_all, this, h]

theorem handlers_unsubscribe_self (T : String) (s : State) :
    handlers (unsubscribe T s) T = [] := by
  have := handlers_emitterOff_self T s
  simpa [handlers, unsubscribe, clientUnsubscribe] using this

theorem handlers_unsubscribe_ne (t T : String) (s : State) (h : t ≠ T) :
    handlers (unsubscribe t s) T = handlers s T := by
  have := lookup_emitterOff_ne t T s (fun e => h e.symm)
  simp [handlers, unsubscribe, clientUnsubscribe, this]

/-- The callbacks registered under `T` after a run that never unsubscribes
`T`: those registered before, then the callbacks of the `onMqttMessage` calls
for `T`, in call order. -/
theorem handlers_run {Buffer : Type} (toString : Buffer → String) (T : String)
    (steps : List (Action Buffer)) (s : State)
    (hno : ∀ t, Action.unsubscribe t ∈ steps → t ≠ T) :
    handlers (run toString steps s) T = handlers s T ++ registered T steps := by
  induction steps generalizing s with
  | nil => simp [run, registered]
  | cons a steps ih =>
    have hrun : run toString (a :: steps) s = run toString steps (a.apply toString s) := rfl
    rw [hrun, ih _ (fun t ht => hno t (List.mem_cons_of_mem _ ht))]
    cases a with
    | onMqttMessage t cb =>
      simp only [Action.apply, registered, handlers_onMqttMessage]
      split <;> simp
    | unsubscribe t =>
      have hne : t ≠ T := hno t (List.mem_cons_self _ _)
      simp only [Action.apply, registered, handlers_unsubscribe_ne t T s hne]
    | message t payload =>
      simp [Action.apply, registered, onMessage, emitterEmit, handlers]
    | client e =>
      cases e with
      | connect =>
        simp [Action.apply, registered, ClientEvent.apply, handlers, (connectEvent_frame s).2.2.1]
      | close =>
        simp [Action.apply, registered, ClientEvent.apply, handlers, closeEvent]

/-! ## Subscribing: claims -/

/-- C3: calling `onMqttMessage({topic: T, cb})` while the client is not
connected issues no broker request at call time, and a single subsequent
`connect` event then issues exactly one subscription request for `T` with
qos 2 on behalf of the call: the event issues what it would have issued
without the call, followed by that one request, and right after module load
the request for `T` is the only one. -/
theorem deferred_subscription_issued_once_on_connect
    (T : String) (cb : Callback) (s : State) (h : s.connected = false) :
    (onMqttMessage T cb s).requests = s.requests ∧
    (connectEvent (onMqttMessage T cb s)).requests =
      (connectEvent s).requests ++ [Request.subscribe T 2] ∧
    (∀ url, (connectEvent (onMqttMessage T cb (State.init url))).requests =
      [Request.subscribe T 2]) := by
  obtain ⟨_, _, f3, _⟩ := emitterOn_frame T cb s
  refine ⟨?_, ?_, ?_⟩
  · rw [onMqttMessage_disconnected T cb s h]
    exact f3
  · obtain ⟨c1, _, _, _⟩ := connectEvent_frame (onMqttMessage T cb s)
    obtain ⟨d1, _, _, _⟩ := connectEvent_frame s
    rw [c1, d1, onMqttMessage_disconnected T cb s h]
    simp [f3]
  · intro url
    obtain ⟨c1, _, _, _⟩ := connectEvent_frame (onMqttMessage T cb (State.init url))
    obtain ⟨_, _, g3, _⟩ := emitterOn_frame T cb (State.init url)
    rw [c1, onMqttMessage_disconnected T cb (State.init url) rfl]
    simp only [g3]
    simp [State.init]

theorem deferred_subscription_issued_once_on_connect_witness :
    (State.init "mqtt://broker").connected = false ∧
    (onMqttMessage "sensors/temp" 7 (State.init "mqtt://broker")).requests = [] ∧
    (connectEvent (onMqttMessage "sensors/temp" 7 (State.init "mqtt://broker"))).requests =
      [Request.subscribe "sensors/temp" 2] :=
  ⟨rfl,
    (deferred_subscription_issued_once_on_connect "sensors/temp" 7
      (State.init "mqtt://broker") rfl).1,
    (deferred_subscription_issued_once_on_connect "sensors/temp" 7
      (State.init "mqtt://broker") rfl).2.2 "mqtt://broker"⟩

/-- C4, as the spec words it, fails: after one deferred `onMqttMessage` call
for a topic, two `connect` events (the initial connect and a reconnect) issue
two subscription requests for the topic, not one. -/
theorem deferred_listener_not_one_time :
    ¬ (subscriptionsFor "sensors/temp"
        (runEvents [ClientEvent.connect, ClientEvent.close, ClientEvent.connect]
          (onMqttMessage "sensors/temp" 7 (State.init "mqtt://broker"))).requests).length = 1 := by
  decide

/-- C4, amended: the listener `onMqttMessage` adds while disconnected stays
registered: after one deferred call for `T`, in a state with no earlier pending
listener for `T`, any sequence of client events holding `m` `connect` events
issues exactly `m` subscription requests for `T`, one per `connect` event. -/
theorem deferred_listener_resubscribes_on_every_connect
    (T : String) (cb : Callback) (s : State) (es : List ClientEvent)
    (h : s.connected = false) (hT : T ∉ s.connectListeners) :
    (subscriptionsFor T (runEvents es (onMqttMessage T cb s)).requests).length =
      (subscriptionsFor T s.requests).length + es.count ClientEvent.connect := by
  obtain ⟨r1, _, _, _⟩ := runEvents_frame es (onMqttMessage T cb s)
  obtain ⟨_, _, f3, _⟩ := emitterOn_frame T cb s
  rw [r1, onMqttMessage_disconnected T cb s h, subscriptionsFor_append, List.length_append,
    subscriptionsFor_issuedBy]
  simp [f3, List.count_eq_zero_of_not_mem hT]

theorem deferred_listener_resubscribes_on_every_connect_witness :
    (State.init "mqtt://broker").connected = false ∧
    "sensors/temp" ∉ (State.init "mqtt://broker").connectListeners ∧
    (subscriptionsFor "sensors/temp"
      (runEvents [ClientEvent.connect, ClientEvent.close, ClientEvent.connect]
        (onMqttMessage "sensors/temp" 7 (State.init "mqtt://broker"))).requests).length =
      (subscriptionsFor "sensors/temp" (State.init "mqtt://broker").requests).length +
        [ClientEvent.connect, ClientEvent.close, ClientEvent.connect].count
          ClientEvent.connect :=
  ⟨rfl, by simp [State.init],
    deferred_listener_resubscribes_on_every_connect "sensors/temp" 7
      (State.init "mqtt://broker") _ rfl (by simp [State.init])⟩

/-- C7: calling `onMqttMessage({topic: T, cb})` while the client is connected
issues exactly one subscription request for `T` with qos 2 during the call and
adds no `connect` listener, so later client events issue exactly what they
would have issued without the call. -/
theorem connected_subscription_immediate_without_deferral
    (T : String) (cb : Callback) (s : State) (es : List ClientEvent)
    (h : s.connected = true) :
    (onMqttMessage T cb s).requests = s.requests ++ [Request.subscribe T 2] ∧
    (onMqttMessage T cb s).connectListeners = s.connectListeners ∧
    (runEvents es (onMqttMessage T cb s)).requests =
      s.requests ++ [Request.subscribe T 2] ++
        (runEvents es s).requests.drop s.requests.length := by
  obtain ⟨_, f2, f3, _⟩ := emitterOn_frame T cb s
  obtain ⟨r1, _, _, _⟩ := runEvents_frame es (onMqttMessage T cb s)
  obtain ⟨q1, _, _, _⟩ := runEvents_frame es s
  rw [r1, q1, onMqttMessage_connected T cb s h]
  simp [subscribe, clientSubscribe, f2, f3]

theorem connected_subscription_immediate_without_deferral_witness :
    ({ State.init "mqtt://broker" with connected := true }).connected = true ∧
    (onMqttMessage "sensors/temp" 7
      { State.init "mqtt://broker" with connected := true }).requests =
      [Request.subscribe "sensors/temp" 2] ∧
    (runEvents [ClientEvent.close, ClientEvent.connect]
      (onMqttMessage "sensors/temp" 7
        { State.init "mqtt://broker" with connected := true })).requests =
      [Request.subscribe "sensors/temp" 2] :=
  ⟨rfl,
    (connected_subscription_immediate_without_deferral "sensors/temp" 7
      { State.init "mqtt://broker" with connected := true }
      [ClientEvent.close, ClientEvent.connect] rfl).1,
    (connected_subscription_immediate_without_deferral "sensors/temp" 7
      { State.init "mqtt://broker" with connected := true }
      [ClientEvent.close, ClientEvent.connect] rfl).2.2⟩

/-! ## Fan-out and unsubscribing: claims -/

/-- C5: after a run from module load that holds `n` `onMqttMessage` calls for
`T` and no `unsubscribe(T)`, one incoming broker message on `T` invokes each of
the `n` registered callbacks exactly once, `n` invocations in total, each with
the argument `{topic: T, message: <payload as text>}`. -/
theorem message_invokes_each_registered_callback_once {Buffer : Type}
    (toString : Buffer → String) (url T : String) (steps : List (Action Buffer))
    (payload : Buffer) (hno : ∀ t, Action.unsubscribe t ∈ steps → t ≠ T) :
    (onMessage toString T payload (run toString steps (State.init url))).calls =
      (run toString steps (State.init url)).calls ++
        (registered T steps).map
          (fun cb => (cb, { topic := T, message := toString payload })) ∧
    ((onMessage toString T payload (run toString steps (State.init url))).calls.drop
      (run toString steps (State.init url)).calls.length).length =
        (registered T steps).length := by
  have h := handlers_run toString T steps (State.init url) hno
  have h0 : handlers (State.init url) T = [] := by simp [handlers, State.init]
  rw [h0, List.nil_append] at h
  simp [onMessage, emitterEmit, h]

theorem message_invokes_each_registered_callback_once_witness :
    (∀ t, Action.unsubscribe t ∈
        ([Action.onMqttMessage "sensors/temp" 1, Action.client ClientEvent.connect,
          Action.onMqttMessage "sensors/temp" 2, Action.unsubscribe "lights",
          Action.onMqttMessage "lights" 3] : List (Action String)) → t ≠ "sensors/temp") ∧
    (onMessage (fun b : String => b) "sensors/temp" "21.5"
        (run (fun b : String => b)
          [Action.onMqttMessage "sensors/temp" 1, Action.client ClientEvent.connect,
            Action.onMqttMessage "sensors/temp" 2, Action.unsubscribe "lights",
            Action.onMqttMessage "lights" 3]
          (State.init "mqtt://broker"))).calls =
      [(1, { topic := "sensors/temp", message := "21.5" }),
        (2, { topic := "sensors/temp", message := "21.5" })] :=
  ⟨by simp,
    (message_invokes_each_registered_callback_once (fun b : String => b) "mqtt://broker"
      "sensors/temp" _ "21.5" (by simp)).1.trans (by decide)⟩

/-- C6: for every topic `T` and every prior state, `unsubscribe(T)` removes
all local callbacks registered under `T`, so a subsequent incoming message on
`T` invokes no callback at all, and it issues exactly one broker-level
unsubscribe request, for `T`. -/
theorem unsubscribe_removes_all_local_callbacks {Buffer : Type}
    (toString : Buffer → String) (T : String) (payload : Buffer) (s : State) :
    handlers (unsubscribe T s) T = [] ∧
    (onMessage toString T payload (unsubscribe T s)).calls = s.calls ∧
    (unsubscribe T s).requests = s.requests ++ [Request.unsubscribe T] := by
  obtain ⟨_, _, f3, f4⟩ := emitterOff_frame T s
  have h := handlers_unsubscribe_self T s
  refine ⟨h, ?_, ?_⟩
  · simp [onMessage, emitterEmit, h]
    simp [unsubscribe, clientUnsubscribe, f4]
  · simp [unsubscribe, clientUnsubscribe, f3]

/-- C8: for every incoming (topic `T`, payload) pair the message handler emits
exactly one event into the emitter, under the key `T`, carrying the payload
decoded to text; it invokes the callbacks registered under `T`, once per
registration, and no callback that is registered only under another topic
`T'`. -/
theorem message_fans_out_by_topic_name {Buffer : Type}
    (toString : Buffer → String) (T : String) (payload : Buffer) (s : State) :
    (onMessage toString T payload s).emitted =
      s.emitted ++ [(T, { topic := T, message := toString payload })] ∧
    (onMessage toString T payload s).calls =
      s.calls ++ (handlers s T).map
        (fun cb => (cb, { topic := T, message := toString payload })) ∧
    (∀ T' cb, T' ≠ T → cb ∈ handlers s T' → cb ∉ handlers s T →
      ∀ m, (cb, m) ∉ (onMessage toString T payload s).calls.drop s.calls.length) := by
  refine ⟨by simp [onMessage, emitterEmit], by simp [onMessage, emitterEmit], ?_⟩
  intro T' cb _ _ hcb m
  simp only [onMessage, emitterEmit, List.drop_left]
  intro hmem
  obtain ⟨c, hc, heq⟩ := List.mem_map.mp hmem
  have : c = cb := congrArg Prod.fst heq
  exact hcb (this ▸ hc)

/-- C9, as the spec words it, fails: when the acknowledgement callback of a
subscribe or of an unsubscribe request is invoked with an error, nothing is
written to the console. -/
theorem ack_error_emits_no_log :
    ¬ (∃ s', subscribeAck "sensors/temp" (some "timeout") (State.init "mqtt://broker") =
          Except.ok s' ∧ s'.console ≠ (State.init "mqtt://broker").console) ∧
    ¬ (∃ s', unsubscribeAck "sensors/temp" (some "timeout") (State.init "mqtt://broker") =
          Except.ok s' ∧ s'.console ≠ (State.init "mqtt://broker").console) := by
  constructor <;> simp [subscribeAck, unsubscribeAck]

/-- C9, amended: the acknowledgement callbacks of the subscribe and unsubscribe
helpers raise nothing to the caller: invoked with an error they return
normally and leave everything, the console included, as it was; a log
statement, one line, is emitted exactly when the acknowledgement carries no
error. -/
theorem ack_never_throws_and_logs_only_success (T : String) (e : String) (s : State) :
    subscribeAck T (some e) s = Except.ok s ∧
    unsubscribeAck T (some e) s = Except.ok s ∧
    subscribeAck T none s = Except.ok (log ("订阅主题 " ++ T ++ " 成功") s) ∧
    unsubscribeAck T none s = Except.ok (log ("取消订阅" ++ T ++ "成功") s) ∧
    (∀ line, (log line s).console = s.console ++ [line]) := by
  simp [subscribeAck, unsubscribeAck, log]

/-- C10: `unsubscribe(T)` does not cancel a pending deferred subscription:
after `onMqttMessage({topic: T, cb})` while disconnected, then `unsubscribe(T)`,
a `connect` event still issues a subscription request for `T` at qos 2 although
no local callback for `T` is registered any more; `unsubscribe` leaves the
`connect` listeners of the client and the emitter entries of the other topics
as they were. -/
theorem unsubscribe_keeps_deferred_subscription
    (T : String) (cb : Callback) (s : State) (h : s.connected = false) :
    (connectEvent (unsubscribe T (onMqttMessage T cb s))).requests =
      s.requests ++ [Request.unsubscribe T] ++
        s.connectListeners.map (fun t => Request.subscribe t 2) ++
        [Request.subscribe T 2] ∧
    handlers (connectEvent (unsubscribe T (onMqttMessage T cb s))) T = [] ∧
    (unsubscribe T (onMqttMessage T cb s)).connectListeners =
      (onMqttMessage T cb s).connectListeners ∧
    (∀ T', T' ≠ T → (unsubscribe T (onMqttMessage T cb s)).all.lookup T' =
      (onMqttMessage T cb s).all.lookup T') := by
  obtain ⟨c1, _, c3, _⟩ := connectEvent_frame (unsubscribe T (onMqttMessage T cb s))
  obtain ⟨_, o2, o3, _⟩ := emitterOff_frame T (onMqttMessage T cb s)
  obtain ⟨_, _, f3, _⟩ := emitterOn_frame T cb s
  have hl : (onMqttMessage T cb s).connectListeners = s.connectListeners ++ [T] := by
    rw [onMqttMessage_disconnected T cb s h]
  have hr : (onMqttMessage T cb s).requests = s.requests := by
    rw [onMqttMessage_disconnected T cb s h]; exact f3
  have hu : (unsubscribe T (onMqttMessage T cb s)).connectListeners =
      (onMqttMessage T cb s).connectListeners := by
    simp [unsubscribe, clientUnsubscribe, o2]
  refine ⟨?_, ?_, hu, ?_⟩
  · rw [c1, hu, hl]
    simp [unsubscribe, clientUnsubscribe, o3, hr]
  · have := handlers_unsubscribe_self T (onMqttMessage T cb s)
    simpa [handlers, c3] using this
  · intro T' hne
    simpa [unsubscribe, clientUnsubscribe] using
      lookup_emitterOff_ne T T' (onMqttMessage T cb s) hne

theorem unsubscribe_keeps_deferred_subscription_witness :
    (State.init "mqtt://broker").connected = false ∧
    (connectEvent (unsubscribe "sensors/temp"
      (onMqttMessage "sensors/temp" 7 (State.init "mqtt://broker")))).requests =
      [Request.unsubscribe "sensors/temp", Request.subscribe "sensors/temp" 2] ∧
    handlers (connectEvent (unsubscribe "sensors/temp"
      (onMqttMessage "sensors/temp" 7 (State.init "mqtt://broker")))) "sensors/temp" = [] :=
  ⟨rfl,
    (unsubscribe_keeps_deferred_subscription "sensors/temp" 7
      (State.init "mqtt://broker") rfl).1,
    (unsubscribe_keeps_deferred_subscription "sensors/temp" 7
      (State.init "mqtt://broker") rfl).2.1⟩

end MqttMitt
